import Mathlib

/-!
Shallow embedding of the text-rendering core in helix-term/src/ui/document.rs.

The embedding keeps the source's names where Lean allows it.  Machine
integers (usize, u16) are modelled as Nat; the constants USIZE_MAX and
U16_MAX stand for the wrap-around bounds where the source relies on them
(the consumed-marker usize::MAX and the initial u16::MAX sentinel row).
Rust usize subtraction that cannot underflow in the source is Nat
(truncated) subtraction here.

External collaborators (the document formatter, the theme, the trailing
whitespace tracker, ropey's byte_to_next_char) are modelled at their
interface: the formatter as the list of (grapheme, position) pairs it
yields plus its final visual position, the theme as a highlight-id to
style function, the tracker as an abstract state machine passed in, and
byte_to_next_char as an arbitrary function parameter.

Mutation of the output surface, decoration hooks and translation
callbacks are represented as an append-only event trace: the driver is a
pure state-passing function whose trace records every surface write, hook
invocation and fired translation callback in order.
-/

/-- usize::MAX on a 64-bit target. -/
def USIZE_MAX : Nat := 2 ^ 64 - 1

/-- u16::MAX. -/
def U16_MAX : Nat := 65535

/-- helix_core::Position (row, col), screen-relative. -/
structure Position where
  row : Nat
  col : Nat
deriving DecidableEq, Repr

/-- helix_view::graphics::Rect (the viewport rectangle). -/
structure Rect where
  x : Nat
  y : Nat
  width : Nat
  height : Nat
deriving DecidableEq, Repr

/-- helix_view::theme::Style, modelled from the data-model interface:
a mergeable attribute set whose patch operator overrides only the
attributes the patch explicitly sets.  Colors are abstract Nat codes and
the modifier bit sets are Nat bit masks. -/
structure Style where
  fg : Option Nat
  bg : Option Nat
  underline_color : Option Nat
  underline_style : Option Nat
  add_modifier : Nat
  sub_modifier : Nat
deriving DecidableEq, Repr

/-- Style::default(): no attribute set. -/
def Style.default : Style := ⟨none, none, none, none, 0, 0⟩

/-- Clear in `a` every bit set in `b` (Modifier::remove). -/
def bitRemove (a b : Nat) : Nat := a ^^^ (a &&& b)

/-- Set in `a` every bit set in `b` (Modifier::insert). -/
def bitInsert (a b : Nat) : Nat := a ||| b

/-- Style::patch: fields set by `other` win, the rest come from `s`. -/
def Style.patch (s other : Style) : Style where
  fg := other.fg.orElse fun _ => s.fg
  bg := other.bg.orElse fun _ => s.bg
  underline_color := other.underline_color.orElse fun _ => s.underline_color
  underline_style := other.underline_style.orElse fun _ => s.underline_style
  add_modifier := bitInsert (bitRemove s.add_modifier other.sub_modifier) other.add_modifier
  sub_modifier := bitInsert (bitRemove s.sub_modifier other.add_modifier) other.sub_modifier

/-- helix_core::syntax::HighlightEvent.  Highlight ids are Nat. -/
inductive HighlightEvent where
  | highlightStart (highlight : Nat)
  | highlightEnd
  | source (start stop : Nat)
deriving DecidableEq, Repr

/-- Is the event a Source event? -/
def HighlightEvent.isSource : HighlightEvent → Bool
  | .source _ _ => true
  | _ => false

/-- StyleIterKind from document.rs. -/
inductive StyleIterKind where
  | baseHighlights
  | overlay
deriving DecidableEq, Repr

/-- The style fold of StyleIter::next over the active-highlight stack:
outermost first, innermost last, later entries win via patch. -/
def activeFold (theme : Nat → Style) (text_style : Style) (active : List Nat) : Style :=
  active.foldl (fun acc span => acc.patch (theme span)) text_style

/-- One call to StyleIter::next.  State: the active-highlight stack (Vec,
push at the back, pop from the back) and the remaining events.  Returns
the yielded (style, end) span together with the updated state, or none
when the event stream is exhausted.  `byteToNextChar` models
RopeSliceExt::byte_to_next_char on the document text, applied when the
stream is byte-indexed (BaseHighlights). -/
def styleIterNext (theme : Nat → Style) (text_style : Style) (kind : StyleIterKind)
    (byteToNextChar : Nat → Nat) :
    List Nat → List HighlightEvent → Option ((Style × Nat) × List Nat × List HighlightEvent)
  | _, [] => none
  | active, .highlightStart h :: rest =>
    styleIterNext theme text_style kind byteToNextChar (active ++ [h]) rest
  | active, .highlightEnd :: rest =>
    styleIterNext theme text_style kind byteToNextChar active.dropLast rest
  | active, .source s e :: rest =>
    if s = e then styleIterNext theme text_style kind byteToNextChar active rest
    else
      let e' := if kind = .baseHighlights then byteToNextChar e else e
      some ((activeFold theme text_style active, e'), active, rest)

/-- All spans the StyleIter yields when run to exhaustion from a given
stack and event list. -/
def styleIterAll (theme : Nat → Style) (text_style : Style) (kind : StyleIterKind)
    (byteToNextChar : Nat → Nat) :
    List Nat → List HighlightEvent → List (Style × Nat)
  | _, [] => []
  | active, .highlightStart h :: rest =>
    styleIterAll theme text_style kind byteToNextChar (active ++ [h]) rest
  | active, .highlightEnd :: rest =>
    styleIterAll theme text_style kind byteToNextChar active.dropLast rest
  | active, .source s e :: rest =>
    if s = e then styleIterAll theme text_style kind byteToNextChar active rest
    else
      (activeFold theme text_style active,
        if kind = .baseHighlights then byteToNextChar e else e)
        :: styleIterAll theme text_style kind byteToNextChar active rest

/-- helix_core::graphemes::Grapheme. -/
inductive RawGrapheme where
  | tab (width : Nat)
  | newline
  | other (g : String)
deriving DecidableEq, Repr

/-- Grapheme::width.  For Other the display width comes from the
external unicode-width crate; the model uses the codepoint count, which
the claims never depend on. -/
def RawGrapheme.width : RawGrapheme → Nat
  | .tab width => width
  | .newline => 1
  | .other g => g.length

/-- Rust char::is_whitespace restricted to the whitespace codepoints
(external standard-library predicate). -/
def charIsWhitespace (c : Char) : Bool :=
  [' ', '\t', '\n', '\x0d', '\x0b', '\x0c', '\u0085', ' ', ' ',
    ' ', ' ', ' ', ' ', ' ', ' ', ' ',
    ' ', ' ', ' ', ' ', ' ', ' ', ' ',
    ' ', '　'].contains c

/-- Grapheme::is_whitespace: tabs and newlines are whitespace; an Other
grapheme is whitespace when its first char is. -/
def RawGrapheme.is_whitespace : RawGrapheme → Bool
  | .tab _ => true
  | .newline => true
  | .other g => (g.toList.head?.map charIsWhitespace).getD false

/-- helix_core::doc_formatter::GraphemeSource. -/
inductive GraphemeSource where
  | document (codepoints : Nat)
  | virtualText (highlight : Option Nat)
deriving DecidableEq, Repr

/-- GraphemeSource::is_virtual. -/
def GraphemeSource.is_virtual : GraphemeSource → Bool
  | .document _ => false
  | .virtualText _ => true

/-- What DocumentFormatter::next yields: the grapheme and its source. -/
structure FormattedGrapheme where
  grapheme : RawGrapheme
  source : GraphemeSource
deriving DecidableEq, Repr

/-- FormattedGrapheme::doc_chars: the grapheme's contribution to the
document character count (virtual text contributes zero). -/
def FormattedGrapheme.doc_chars (g : FormattedGrapheme) : Nat :=
  match g.source with
  | .document codepoints => codepoints
  | .virtualText _ => 0

/-- FormattedGrapheme::is_virtual. -/
def FormattedGrapheme.is_virtual (g : FormattedGrapheme) : Bool :=
  g.source.is_virtual

/-- LinePos from document.rs. -/
structure LinePos where
  first_visual_line : Bool
  doc_line : Nat
  visual_line : Nat
  start_char_idx : Nat
deriving DecidableEq, Repr

/-- WhitespaceKind from ui/trailing_whitespace.rs (interface only). -/
inductive WhitespaceKind where
  | none
  | space
  | nonBreakingSpace
  | narrowNonBreakingSpace
  | tab
  | newline
deriving DecidableEq, Repr

/-- One write to the output surface (tui::buffer::Buffer): either
Buffer::set_string or Buffer::set_style over a rectangle. -/
inductive SurfaceOp where
  | setString (x y : Nat) (text : String) (style : Style)
  | setStyle (x y width height : Nat) (style : Style)
deriving DecidableEq, Repr

/-- The text written by a surface op, when it writes text. -/
def opText : SurfaceOp → Option String
  | .setString _ _ t _ => some t
  | _ => none

/-- The trailing-whitespace tracker's interface (its state machine lives
in ui/trailing_whitespace.rs, outside this core): `track` feeds one
in-window column and whitespace kind and reports whether the tracked run
must be flushed; `render` flushes, yielding (glyph run, start column)
pairs. -/
structure TrackerOps (σ : Type) where
  track : σ → Nat → WhitespaceKind → σ × Bool
  render : σ → σ × List (String × Nat)

/-- TextRenderer from document.rs (the output surface is replaced by the
op trace; the tracker state has abstract type σ). -/
structure TextRenderer (σ : Type) where
  text_style : Style
  whitespace_style : Style
  trailing_whitespace_style : Style
  indent_guide_char : String
  indent_guide_style : Style
  newline : String
  nbsp : String
  nnbsp : String
  space : String
  tab : String
  virtual_tab : String
  indent_width : Nat
  starting_indent : Nat
  draw_indent_guides : Bool
  col_offset : Nat
  viewport : Rect
  trailing_whitespace_tracker : σ
deriving DecidableEq, Repr

/-- GraphemeStyle from document.rs. -/
structure GraphemeStyle where
  syntax_style : Style
  overlay_style : Style
deriving DecidableEq, Repr

/-- First `n` chars of `s`: models `&tab[..char_to_byte_idx(tab, width)]`. -/
def takeChars (s : String) (n : Nat) : String := String.mk (s.toList.take n)

/-- Lines 446-450 of draw_grapheme: syntax-layer style, patched by the
whitespace style when the grapheme is whitespace, then patched by the
overlay-layer style. -/
def resolveStyle (r : TextRenderer σ) (grapheme_style : GraphemeStyle)
    (is_whitespace : Bool) : Style :=
  let style := grapheme_style.syntax_style
  let style := if is_whitespace then style.patch r.whitespace_style else style
  style.patch grapheme_style.overlay_style

/-- Lines 452-486 of draw_grapheme: pick the glyph run and whitespace
kind for one grapheme.  Virtual graphemes use a plain space for space,
nbsp and nnbsp and the virtual_tab run for tabs. -/
def resolveGlyph (r : TextRenderer σ) (grapheme : RawGrapheme) (is_virtual : Bool) :
    WhitespaceKind × String :=
  let space := if is_virtual then " " else r.space
  let nbsp := if is_virtual then " " else r.nbsp
  let nnbsp := if is_virtual then " " else r.nnbsp
  let tab := if is_virtual then r.virtual_tab else r.tab
  match grapheme with
  | .tab width => (WhitespaceKind.tab, takeChars tab width)
  | .other g =>
    if g = " " then (WhitespaceKind.space, space)
    else if g = " " then (WhitespaceKind.nonBreakingSpace, nbsp)
    else if g = " " then (WhitespaceKind.narrowNonBreakingSpace, nnbsp)
    else (WhitespaceKind.none, g)
  | .newline => (WhitespaceKind.newline, r.newline)

/-- Result of TextRenderer::draw_grapheme: the new tracker state, the
two indent-bookkeeping out-parameters, and the surface writes made. -/
structure DrawResult (σ : Type) where
  tracker : σ
  last_indent_level : Nat
  is_in_indent_area : Bool
  ops : List SurfaceOp
deriving DecidableEq, Repr

/-- TextRenderer::draw_grapheme (lines 433-531). -/
def drawGrapheme (tk : TrackerOps σ) (r : TextRenderer σ) (grapheme : RawGrapheme)
    (grapheme_style : GraphemeStyle) (is_virtual : Bool)
    (last_indent_level : Nat) (is_in_indent_area : Bool) (position : Position) :
    DrawResult σ :=
  let cut_off_start := r.col_offset - position.col
  let is_whitespace := grapheme.is_whitespace
  let style := resolveStyle r grapheme_style is_whitespace
  let width := grapheme.width
  let wkGlyph := resolveGlyph r grapheme is_virtual
  let whitespace_kind := wkGlyph.1
  let glyph := wkGlyph.2
  let viewport_right_edge := r.viewport.width + r.col_offset - 1
  let trOps :=
    if r.col_offset ≤ position.col ∧ position.col ≤ viewport_right_edge then
      let in_bounds_col := position.col - r.col_offset
      let op := SurfaceOp.setString (r.viewport.x + in_bounds_col)
        (r.viewport.y + position.row) glyph style
      let tracked := tk.track r.trailing_whitespace_tracker in_bounds_col whitespace_kind
      if tracked.2 = true ∨ position.col = viewport_right_edge then
        let flushed := tk.render tracked.1
        (flushed.1, op :: flushed.2.map (fun run =>
          SurfaceOp.setString (r.viewport.x + run.2) (r.viewport.y + position.row)
            run.1 (style.patch r.trailing_whitespace_style)))
      else (tracked.1, [op])
    else if cut_off_start ≠ 0 ∧ cut_off_start < width then
      (r.trailing_whitespace_tracker,
        [SurfaceOp.setStyle r.viewport.x (r.viewport.y + position.row)
          (width - cut_off_start) 1 style])
    else (r.trailing_whitespace_tracker, [])
  let indent :=
    if is_in_indent_area = true ∧ is_whitespace = false then (position.col, false)
    else (last_indent_level, is_in_indent_area)
  ⟨trOps.1, indent.1, indent.2, trOps.2⟩

/-- TextRenderer::draw_indent_guides (lines 536-557), as the list of
surface writes it makes. -/
def drawIndentGuidesOps (r : TextRenderer σ) (indent_level : Nat) (row : Nat) :
    List SurfaceOp :=
  if r.draw_indent_guides = false then []
  else
    let end_indent := min indent_level
      (r.col_offset + r.viewport.width + (r.indent_width - 1)) / r.indent_width
    (List.range (end_indent - r.starting_indent)).map (fun j =>
      let i := r.starting_indent + j
      SurfaceOp.setString (r.viewport.x + i * r.indent_width - r.col_offset)
        (r.viewport.y + row) r.indent_guide_char r.indent_guide_style)

/-- The per-pass parameters translate_positions reads from the text
format and the renderer: text_fmt.soft_wrap, renderer.col_offset and
renderer.viewport.width. -/
structure TranslateCfg where
  soft_wrap : Bool
  col_offset : Nat
  viewport_width : Nat
deriving DecidableEq, Repr

/-- The body of translate_positions' loop (lines 149-171) for one
(char_idx, callback) entry: the updated char_idx (usize::MAX once
consumed) and the position handed to the callback when it fires (none
when the entry is not reached or the target cell is clipped off-screen). -/
def tpEntryStep (cfg : TranslateCfg) (char_pos first_visible_char_idx : Nat)
    (pos : Position) (char_idx : Nat) : Nat × Option Position :=
  if char_idx < char_pos ∧ first_visible_char_idx ≤ char_idx then
    (USIZE_MAX,
      if cfg.soft_wrap then some pos
      else if cfg.col_offset ≤ pos.col ∧ pos.col - cfg.col_offset < cfg.viewport_width then
        some ⟨pos.row, pos.col - cfg.col_offset⟩
      else none)
  else (char_idx, none)

/-- One crossing event in a pass, as seen by one translation entry: the
arguments of one translate_positions call. -/
structure TPCall where
  char_pos : Nat
  first_visible_char_idx : Nat
  pos : Position
deriving DecidableEq, Repr

/-- Run one translation entry through a whole pass (a sequence of
translate_positions calls), collecting the positions with which its
callback is invoked. -/
def tpEntryRun (cfg : TranslateCfg) : List TPCall → Nat → List Position
  | [], _ => []
  | c :: cs, char_idx =>
    let step := tpEntryStep cfg c.char_pos c.first_visible_char_idx c.pos char_idx
    (match step.2 with
     | some p => [p]
     | none => []) ++ tpEntryRun cfg cs step.1

/-- LinePos and Position events observed during a render pass.  Surface
writes, decoration-hook invocations and fired translation callbacks are
recorded in order; `i` / `idx` is the hook's registration index
respectively the request's index in the caller's list. -/
inductive RenderEvent where
  | op (o : SurfaceOp)
  | decorBackground (i : Nat) (pos : LinePos)
  | decorForeground (i : Nat) (pos : LinePos) (end_char_idx : Nat)
  | translated (idx : Nat) (pos : Position)
deriving DecidableEq, Repr

/-- translate_positions (lines 140-172) over the whole entry list,
starting at entry index `i`: the updated entry list and the fired
callback events in order. -/
def translateGo (cfg : TranslateCfg) (char_pos first_visible_char_idx : Nat)
    (pos : Position) : Nat → List Nat → List Nat × List RenderEvent
  | _, [] => ([], [])
  | i, char_idx :: rest =>
    let step := tpEntryStep cfg char_pos first_visible_char_idx pos char_idx
    let next := translateGo cfg char_pos first_visible_char_idx pos (i + 1) rest
    (step.1 :: next.1,
      (match step.2 with
       | some p => [RenderEvent.translated i p]
       | none => []) ++ next.2)

/-- One (grapheme, visual position) pair pulled from the lazy
DocumentFormatter, together with formatter.line_pos() at that point. -/
structure FmtItem where
  doc_line : Nat
  grapheme : FormattedGrapheme
  pos : Position
deriving DecidableEq, Repr

/-- The per-pass immutable configuration of render_text: the vertical
scroll row (visual_offset_from_block row plus offset.vertical_offset),
the soft-wrap flag, the theme's highlight lookup, byte_to_next_char on
the document text, the number of registered line decorations and the
trailing-whitespace tracker's operations. -/
structure RtCfg (σ : Type) where
  row_off : Nat
  soft_wrap : Bool
  theme : Nat → Style
  byteToNextChar : Nat → Nat
  n_decorations : Nat
  tracker_ops : TrackerOps σ

/-- The mutable state of one render_text pass. -/
structure RtSt (σ : Type) where
  renderer : TextRenderer σ
  char_pos : Nat
  first_visible_char_idx : Nat
  syn_active : List Nat
  syn_events : List HighlightEvent
  syn_span : Style × Nat
  ov_active : List Nat
  ov_events : List HighlightEvent
  ov_span : Style × Nat
  last_line_pos : LinePos
  is_in_indent_area : Bool
  last_line_indent_level : Nat
  entries : List Nat
  trace : List RenderEvent

/-- The TranslateCfg of a pass. -/
def rtTranslateCfg (cfg : RtCfg σ) (r : TextRenderer σ) : TranslateCfg :=
  ⟨cfg.soft_wrap, r.col_offset, r.viewport.width⟩

/-- The sentinel span substituted when a style stream runs dry: default
style up to the unreachable index usize::MAX. -/
def sentinelSpan : Style × Nat := (Style.default, USIZE_MAX)

/-- One StyleIter advance with the sentinel as fallback, modelling
next().unwrap_or((Style::default(), usize::MAX)): the next span and
updated iterator state, or the sentinel span with the state unchanged
when the stream is exhausted (used at initialization, lines 228-233,
and in the visible region, lines 304-314). -/
def nextSpanOr (theme : Nat → Style) (text_style : Style) (kind : StyleIterKind)
    (byteToNextChar : Nat → Nat) (active : List Nat) (evs : List HighlightEvent) :
    (Style × Nat) × List Nat × List HighlightEvent :=
  match styleIterNext theme text_style kind byteToNextChar active evs with
  | some r => r
  | none => (sentinelSpan, active, evs)

/-- render_background events for all registered decorations in order. -/
def decorBackgroundEvents (n : Nat) (pos : LinePos) : List RenderEvent :=
  (List.range n).map (fun i => RenderEvent.decorBackground i pos)

/-- render_foreground events for all registered decorations in order. -/
def decorForegroundEvents (n : Nat) (pos : LinePos) (end_char_idx : Nat) :
    List RenderEvent :=
  (List.range n).map (fun i => RenderEvent.decorForeground i pos end_char_idx)

/-- Lines 259-265: while skipping rows above the viewport, advance the
syntax style span when the running offset has reached its end.  Returns
none when the span must advance but the stream is exhausted (the
source's `break`), else the state with the span advanced. -/
def skipAdvanceSyn (cfg : RtCfg σ) (st : RtSt σ) : Option (RtSt σ) :=
  if st.syn_span.2 ≤ st.char_pos then
    (styleIterNext cfg.theme st.renderer.text_style .baseHighlights
        cfg.byteToNextChar st.syn_active st.syn_events).map
      (fun s => { st with syn_span := s.1, syn_active := s.2.1, syn_events := s.2.2 })
  else some st

/-- Lines 266-272: the same advance for the overlay style span. -/
def skipAdvanceOv (cfg : RtCfg σ) (st : RtSt σ) : Option (RtSt σ) :=
  if st.ov_span.2 ≤ st.char_pos then
    (styleIterNext cfg.theme Style.default .overlay
        cfg.byteToNextChar st.ov_active st.ov_events).map
      (fun o => { st with ov_span := o.1, ov_active := o.2.1, ov_events := o.2.2 })
  else some st

/-- The main loop of render_text (lines 235-350).  `fp` is
formatter.visual_pos() at exhaustion.  The function returns the state at
loop exit; every `break` of the source is a plain return here, and the
post-loop finalization (lines 352-355) is applied by renderText. -/
def renderLoop (cfg : RtCfg σ) (fp : Position) : List FmtItem → RtSt σ → RtSt σ
  | [], st =>
    -- formatter exhausted (lines 239-255): one final translation attempt
    if cfg.row_off ≤ fp.row then
      let last_pos : Position := ⟨fp.row - cfg.row_off, fp.col - 1⟩
      let t := translateGo (rtTranslateCfg cfg st.renderer) (st.char_pos + 1)
        st.first_visible_char_idx last_pos 0 st.entries
      { st with entries := t.1, trace := st.trace ++ t.2 }
    else st
  | item :: rest, st =>
    if item.pos.row < cfg.row_off then
      -- skip graphemes on visual lines before the block start (lines 258-276)
      match skipAdvanceSyn cfg st with
      | none => st
      | some st1 =>
        match skipAdvanceOv cfg st1 with
        | none => st1
        | some st2 =>
          let char_pos := st2.char_pos + item.grapheme.doc_chars
          renderLoop cfg fp rest { st2 with
            char_pos := char_pos, first_visible_char_idx := char_pos + 1 }
    else
      let pos : Position := ⟨item.pos.row - cfg.row_off, item.pos.col⟩
      -- stop when the end of the viewport is reached (lines 280-282)
      if st.renderer.viewport.height ≤ pos.row then st
      else
        -- apply decorations before rendering a new line (lines 285-302)
        let st :=
          if pos.row ≠ st.last_line_pos.visual_line then
            let st :=
              if 0 < pos.row then
                { st with
                  trace := st.trace
                    ++ (drawIndentGuidesOps st.renderer st.last_line_indent_level
                          st.last_line_pos.visual_line).map RenderEvent.op
                    ++ decorForegroundEvents cfg.n_decorations st.last_line_pos st.char_pos,
                  is_in_indent_area := true }
              else st
            let lp : LinePos := ⟨item.doc_line != st.last_line_pos.doc_line,
              item.doc_line, pos.row, st.char_pos⟩
            { st with
              last_line_pos := lp,
              trace := st.trace ++ decorBackgroundEvents cfg.n_decorations lp }
          else st
        -- acquire the correct grapheme style (lines 304-314)
        let st :=
          if st.syn_span.2 ≤ st.char_pos then
            let n := nextSpanOr cfg.theme st.renderer.text_style .baseHighlights
              cfg.byteToNextChar st.syn_active st.syn_events
            { st with syn_span := n.1, syn_active := n.2.1, syn_events := n.2.2 }
          else st
        let st :=
          if st.ov_span.2 ≤ st.char_pos then
            let n := nextSpanOr cfg.theme Style.default .overlay
              cfg.byteToNextChar st.ov_active st.ov_events
            { st with ov_span := n.1, ov_active := n.2.1, ov_events := n.2.2 }
          else st
        let st := { st with char_pos := st.char_pos + item.grapheme.doc_chars }
        -- translation requests (lines 317-325)
        let t := translateGo (rtTranslateCfg cfg st.renderer) st.char_pos
          st.first_visible_char_idx pos 0 st.entries
        let st := { st with entries := t.1, trace := st.trace ++ t.2 }
        -- style resolution (lines 327-336)
        let styles : GraphemeStyle :=
          match item.grapheme.source with
          | .virtualText highlight =>
            ⟨match highlight with
             | some h => st.renderer.text_style.patch (cfg.theme h)
             | none => st.renderer.text_style,
             Style.default⟩
          | .document _ => ⟨st.syn_span.1, st.ov_span.1⟩
        -- drawing (lines 338-349)
        let d := drawGrapheme cfg.tracker_ops st.renderer item.grapheme.grapheme styles
          item.grapheme.is_virtual st.last_line_indent_level st.is_in_indent_area pos
        renderLoop cfg fp rest { st with
          renderer := { st.renderer with trailing_whitespace_tracker := d.tracker },
          last_line_indent_level := d.last_indent_level,
          is_in_indent_area := d.is_in_indent_area,
          trace := st.trace ++ d.ops.map RenderEvent.op }

/-- All inputs of one render_text call.  init_char_pos and row_off model
the result of visual_offset_from_block plus offset.vertical_offset;
init_first_visible_char_idx, items and final_pos model the
DocumentFormatter started at the previous checkpoint. -/
structure RenderInput (σ : Type) where
  cfg : RtCfg σ
  renderer : TextRenderer σ
  init_char_pos : Nat
  init_first_visible_char_idx : Nat
  items : List FmtItem
  final_pos : Position
  syntax_events : List HighlightEvent
  overlay_events : List HighlightEvent
  entries : List Nat

/-- render_text (lines 175-356): initialize both style iterators and the
loop state, run the loop, then finalize the last row (indent guides and
foreground decoration hooks). -/
def renderText (inp : RenderInput σ) : RtSt σ :=
  let s0 := nextSpanOr inp.cfg.theme inp.renderer.text_style .baseHighlights
    inp.cfg.byteToNextChar [] inp.syntax_events
  let o0 := nextSpanOr inp.cfg.theme Style.default .overlay
    inp.cfg.byteToNextChar [] inp.overlay_events
  let st0 : RtSt σ :=
    { renderer := inp.renderer
      char_pos := inp.init_char_pos
      first_visible_char_idx := inp.init_first_visible_char_idx
      syn_active := s0.2.1
      syn_events := s0.2.2
      syn_span := s0.1
      ov_active := o0.2.1
      ov_events := o0.2.2
      ov_span := o0.1
      last_line_pos := ⟨false, USIZE_MAX, U16_MAX, USIZE_MAX⟩
      is_in_indent_area := true
      last_line_indent_level := 0
      entries := inp.entries
      trace := [] }
  let st := renderLoop inp.cfg inp.final_pos inp.items st0
  { st with trace := st.trace
      ++ (drawIndentGuidesOps st.renderer st.last_line_indent_level
            st.last_line_pos.visual_line).map RenderEvent.op
      ++ decorForegroundEvents inp.cfg.n_decorations st.last_line_pos st.char_pos }

/-- A tracker that never requests a flush (used for concrete instances;
the theorems about draw_grapheme quantify over arbitrary trackers). -/
def trivialTracker : TrackerOps Unit where
  track := fun s _ _ => (s, false)
  render := fun s => (s, [])

/-- A concrete renderer configuration for instance theorems, with
distinctive glyph runs for every whitespace kind. -/
def exRenderer : TextRenderer Unit where
  text_style := Style.default
  whitespace_style := Style.default
  trailing_whitespace_style := Style.default
  indent_guide_char := "|"
  indent_guide_style := Style.default
  newline := "⏎"
  nbsp := "⍽"
  nnbsp := "·"
  space := "·"
  tab := "→···"
  virtual_tab := "VT"
  indent_width := 4
  starting_indent := 0
  draw_indent_guides := false
  col_offset := 0
  viewport := ⟨0, 0, 10, 5⟩
  trailing_whitespace_tracker := ()

/-- A concrete pass configuration: one row scrolled off the top. -/
def exCfg : RtCfg Unit where
  row_off := 1
  soft_wrap := true
  theme := fun _ => Style.default
  byteToNextChar := id
  n_decorations := 0
  tracker_ops := trivialTracker

/-- A concrete style with attributes set. -/
def exStyle : Style := ⟨some 1, some 2, none, none, 0, 0⟩

/-- Claim C8: a highlight-event stream with no HighlightStart or
HighlightEnd events (only Source events) yields spans whose style is
exactly the base style supplied to the StyleIter: merging is the
identity on the base style. -/
theorem c8_flat_stream_identity (theme : Nat → Style) (ts : Style)
    (kind : StyleIterKind) (b2c : Nat → Nat) :
    ∀ evs : List HighlightEvent, (∀ e ∈ evs, e.isSource = true) →
      ∀ sp ∈ styleIterAll theme ts kind b2c [] evs, sp.1 = ts := by
  intro evs
  induction evs with
  | nil => intro _ sp hsp; simp [styleIterAll] at hsp
  | cons e rest ih =>
    intro h sp hsp
    match e with
    | .highlightStart hl =>
      have := h _ (List.mem_cons_self _ _)
      simp [HighlightEvent.isSource] at this
    | .highlightEnd =>
      have := h _ (List.mem_cons_self _ _)
      simp [HighlightEvent.isSource] at this
    | .source s e2 =>
      rw [styleIterAll] at hsp
      by_cases hse : s = e2
      · rw [if_pos hse] at hsp
        exact ih (fun x hx => h x (List.mem_cons_of_mem _ hx)) sp hsp
      · rw [if_neg hse] at hsp
        rcases List.mem_cons.mp hsp with h1 | h1
        · rw [h1]; rfl
        · exact ih (fun x hx => h x (List.mem_cons_of_mem _ hx)) sp h1

/-- Witness for C8 at a concrete flat stream and base style. -/
theorem c8_flat_stream_identity_witness :
    (∀ e ∈ [HighlightEvent.source 0 2, HighlightEvent.source 2 2,
        HighlightEvent.source 2 5], e.isSource = true)
    ∧ ∀ sp ∈ styleIterAll (fun _ => Style.default) exStyle StyleIterKind.overlay id []
        [HighlightEvent.source 0 2, HighlightEvent.source 2 2, HighlightEvent.source 2 5],
        sp.1 = exStyle :=
  ⟨by decide,
   c8_flat_stream_identity (fun _ => Style.default) exStyle StyleIterKind.overlay id _
     (by decide)⟩

/-- Claim C10: a HighlightEnd event arriving while the active-highlight
stack is empty is silently ignored (popping the empty stack is a no-op):
the spans yielded after an unmatched End are exactly those yielded
without it, and StyleIter::next never panics on it. -/
theorem c10_unmatched_end_ignored (theme : Nat → Style) (ts : Style)
    (kind : StyleIterKind) (b2c : Nat → Nat) (evs : List HighlightEvent) :
    styleIterAll theme ts kind b2c [] (HighlightEvent.highlightEnd :: evs) =
      styleIterAll theme ts kind b2c [] evs
    ∧ styleIterNext theme ts kind b2c [] (HighlightEvent.highlightEnd :: evs) =
      styleIterNext theme ts kind b2c [] evs :=
  ⟨rfl, rfl⟩

/-- Claim C6: when a translation entry is reached (its index is below
the consumed count and inside the visible window), the entry is marked
consumed; with soft wrap the callback gets the raw position, without
soft wrap it is suppressed exactly when the column lies left of the
horizontal scroll offset or at/past scroll offset plus viewport width,
and otherwise gets the column shifted left by the scroll offset. -/
theorem c6_translate_clipping (cfg : TranslateCfg) (char_pos fv : Nat)
    (pos : Position) (ci : Nat) (h1 : ci < char_pos) (h2 : fv ≤ ci) :
    tpEntryStep cfg char_pos fv pos ci =
      (USIZE_MAX,
        if cfg.soft_wrap then some pos
        else if cfg.col_offset ≤ pos.col ∧ pos.col < cfg.col_offset + cfg.viewport_width then
          some ⟨pos.row, pos.col - cfg.col_offset⟩
        else none) := by
  have hiff : (cfg.col_offset ≤ pos.col ∧ pos.col - cfg.col_offset < cfg.viewport_width)
      ↔ (cfg.col_offset ≤ pos.col ∧ pos.col < cfg.col_offset + cfg.viewport_width) := by
    omega
  unfold tpEntryStep
  rw [if_pos ⟨h1, h2⟩]
  simp only [hiff]

/-- Witness for C6: entry 3 fires at consumed count 4 with the column
shifted by the scroll offset 2. -/
theorem c6_translate_clipping_witness :
    tpEntryStep ⟨false, 2, 5⟩ 4 0 ⟨1, 3⟩ 3 = (USIZE_MAX, some ⟨1, 1⟩) :=
  (c6_translate_clipping ⟨false, 2, 5⟩ 4 0 ⟨1, 3⟩ 3 (by decide) (by decide)).trans
    (by decide)

/-- A consumed entry (char_idx = usize::MAX) never fires again, because
every consumed-count argument is at most usize::MAX. -/
theorem tpEntryStep_consumed (cfg : TranslateCfg) (cp fv : Nat) (pos : Position)
    (h : cp ≤ USIZE_MAX) :
    tpEntryStep cfg cp fv pos USIZE_MAX = (USIZE_MAX, none) := by
  unfold tpEntryStep
  rw [if_neg]
  rintro ⟨hlt, -⟩
  omega

/-- A consumed entry stays silent for the rest of the pass. -/
theorem tpEntryRun_consumed (cfg : TranslateCfg) :
    ∀ calls : List TPCall, (∀ c ∈ calls, c.char_pos ≤ USIZE_MAX) →
      tpEntryRun cfg calls USIZE_MAX = [] := by
  intro calls
  induction calls with
  | nil => intro _; rfl
  | cons c cs ih =>
    intro h
    rw [tpEntryRun]
    rw [tpEntryStep_consumed cfg c.char_pos c.first_visible_char_idx c.pos
      (h c (List.mem_cons_self _ _))]
    simpa using ih (fun x hx => h x (List.mem_cons_of_mem _ hx))

/-- Claim C3: over any sequence of translate_positions calls in one
pass (consumed counts bounded by usize::MAX, as Rust allocations are),
each translation entry's callback is invoked at most once: the first
firing overwrites the entry's index with usize::MAX, which no later
crossing can reach. -/
theorem c3_fires_at_most_once (cfg : TranslateCfg) (calls : List TPCall) (ci : Nat)
    (h : ∀ c ∈ calls, c.char_pos ≤ USIZE_MAX) :
    (tpEntryRun cfg calls ci).length ≤ 1 := by
  induction calls generalizing ci with
  | nil => simp [tpEntryRun]
  | cons c cs ih =>
    rw [tpEntryRun]
    by_cases he : ci < c.char_pos ∧ c.first_visible_char_idx ≤ ci
    · have hstep : tpEntryStep cfg c.char_pos c.first_visible_char_idx c.pos ci =
          (USIZE_MAX,
            if cfg.soft_wrap then some c.pos
            else if cfg.col_offset ≤ c.pos.col ∧
                c.pos.col - cfg.col_offset < cfg.viewport_width then
              some ⟨c.pos.row, c.pos.col - cfg.col_offset⟩
            else none) := by
        unfold tpEntryStep
        rw [if_pos he]
      rw [hstep]
      rw [tpEntryRun_consumed cfg cs (fun x hx => h x (List.mem_cons_of_mem _ hx))]
      rcases hf : (if cfg.soft_wrap then some c.pos
          else if cfg.col_offset ≤ c.pos.col ∧
              c.pos.col - cfg.col_offset < cfg.viewport_width then
            some ⟨c.pos.row, c.pos.col - cfg.col_offset⟩
          else none) with _ | p <;> simp [hf]
    · have hstep : tpEntryStep cfg c.char_pos c.first_visible_char_idx c.pos ci =
          (ci, none) := by
        unfold tpEntryStep
        rw [if_neg he]
      rw [hstep]
      simpa using ih ci (fun x hx => h x (List.mem_cons_of_mem _ hx))

/-- Witness for C3 at a concrete pass with two crossings of the entry. -/
theorem c3_fires_at_most_once_witness :
    (∀ c ∈ [TPCall.mk 4 0 ⟨0, 3⟩, TPCall.mk 6 0 ⟨0, 5⟩], c.char_pos ≤ USIZE_MAX)
    ∧ (tpEntryRun ⟨true, 0, 10⟩ [TPCall.mk 4 0 ⟨0, 3⟩, TPCall.mk 6 0 ⟨0, 5⟩] 3).length ≤ 1 :=
  ⟨by decide, c3_fires_at_most_once ⟨true, 0, 10⟩ _ 3 (by decide)⟩

/-- In-bounds drawing: when the grapheme's column lies inside the
visible window, the first surface write of draw_grapheme is the glyph
with the resolved style at the shifted column. -/
theorem drawGrapheme_head_in_bounds (tk : TrackerOps σ) (r : TextRenderer σ)
    (g : RawGrapheme) (gs : GraphemeStyle) (v : Bool) (lvl : Nat) (area : Bool)
    (pos : Position) (h1 : r.col_offset ≤ pos.col)
    (h2 : pos.col ≤ r.viewport.width + r.col_offset - 1) :
    (drawGrapheme tk r g gs v lvl area pos).ops.head? =
      some (SurfaceOp.setString (r.viewport.x + (pos.col - r.col_offset))
        (r.viewport.y + pos.row) (resolveGlyph r g v).2
        (resolveStyle r gs g.is_whitespace)) := by
  simp only [drawGrapheme]
  rw [if_pos ⟨h1, h2⟩]
  split
  · rfl
  · rfl

/-- Claim C1, counterexample: with is_virtual = true, a newline grapheme
is drawn with the configured newline glyph and a tab with the configured
virtual-tab run, not with a plain space. -/
theorem c1_counterexample :
    ((drawGrapheme trivialTracker exRenderer RawGrapheme.newline
        ⟨Style.default, Style.default⟩ true 0 true ⟨0, 0⟩).ops.map opText = [some "⏎"]
      ∧ (drawGrapheme trivialTracker exRenderer (RawGrapheme.tab 2)
        ⟨Style.default, Style.default⟩ true 0 true ⟨0, 0⟩).ops.map opText = [some "VT"])
    ∧ ¬ "⏎" = " " ∧ ¬ "VT" = " " := by decide

/-- Claim C1, amended: a virtual-text grapheme substitutes a plain space
for a space, a non-breaking space and a narrow non-breaking space; a
virtual tab uses the configured virtual_tab run truncated to its display
width, and a virtual newline uses the configured newline glyph, the same
as a non-virtual one. -/
theorem c1_virtual_whitespace_glyphs (σ : Type) (r : TextRenderer σ) :
    (∀ w, resolveGlyph r (RawGrapheme.tab w) true =
      (WhitespaceKind.tab, takeChars r.virtual_tab w))
    ∧ resolveGlyph r (RawGrapheme.other " ") true = (WhitespaceKind.space, " ")
    ∧ resolveGlyph r (RawGrapheme.other " ") true = (WhitespaceKind.nonBreakingSpace, " ")
    ∧ resolveGlyph r (RawGrapheme.other " ") true = (WhitespaceKind.narrowNonBreakingSpace, " ")
    ∧ resolveGlyph r RawGrapheme.newline true = (WhitespaceKind.newline, r.newline) := by
  refine ⟨fun _ => rfl, rfl, ?_, ?_, rfl⟩
  · simp [resolveGlyph]
  · simp [resolveGlyph]

/-- Claim C4: a grapheme whose visual column equals
scroll_offset + viewport_width - 1 is fully drawn (glyph and style at
the shifted column), while one at scroll_offset + viewport_width
produces no surface write at all. -/
theorem c4_right_edge_clipping (tk : TrackerOps σ) (r : TextRenderer σ)
    (g : RawGrapheme) (gs : GraphemeStyle) (v : Bool) (lvl : Nat) (area : Bool)
    (row : Nat) (hw : 1 ≤ r.viewport.width) :
    ((drawGrapheme tk r g gs v lvl area
        ⟨row, r.col_offset + r.viewport.width - 1⟩).ops.head? =
      some (SurfaceOp.setString (r.viewport.x + (r.viewport.width - 1))
        (r.viewport.y + row) (resolveGlyph r g v).2
        (resolveStyle r gs g.is_whitespace)))
    ∧ (drawGrapheme tk r g gs v lvl area
        ⟨row, r.col_offset + r.viewport.width⟩).ops = [] := by
  constructor
  · have h1 : r.col_offset ≤ (⟨row, r.col_offset + r.viewport.width - 1⟩ : Position).col := by
      show r.col_offset ≤ r.col_offset + r.viewport.width - 1
      omega
    have h2 : (⟨row, r.col_offset + r.viewport.width - 1⟩ : Position).col ≤
        r.viewport.width + r.col_offset - 1 := by
      show r.col_offset + r.viewport.width - 1 ≤ r.viewport.width + r.col_offset - 1
      omega
    rw [drawGrapheme_head_in_bounds tk r g gs v lvl area
      ⟨row, r.col_offset + r.viewport.width - 1⟩ h1 h2]
    have hcol : (⟨row, r.col_offset + r.viewport.width - 1⟩ : Position).col - r.col_offset =
        r.viewport.width - 1 := by
      show r.col_offset + r.viewport.width - 1 - r.col_offset = r.viewport.width - 1
      omega
    rw [hcol]
  · simp only [drawGrapheme]
    rw [if_neg (by omega :
      ¬(r.col_offset ≤ r.col_offset + r.viewport.width
        ∧ r.col_offset + r.viewport.width ≤ r.viewport.width + r.col_offset - 1))]
    rw [if_neg (by
      rintro ⟨hne, -⟩
      exact hne (by omega))]

/-- Witness for C4 at the concrete renderer (scroll offset 0, width 10):
column 9 is drawn, column 10 is not. -/
theorem c4_right_edge_clipping_witness :
    1 ≤ exRenderer.viewport.width
    ∧ (((drawGrapheme trivialTracker exRenderer (RawGrapheme.other "x")
        ⟨Style.default, Style.default⟩ false 0 true
        ⟨3, exRenderer.col_offset + exRenderer.viewport.width - 1⟩).ops.head? =
      some (SurfaceOp.setString
        (exRenderer.viewport.x + (exRenderer.viewport.width - 1))
        (exRenderer.viewport.y + 3)
        (resolveGlyph exRenderer (RawGrapheme.other "x") false).2
        (resolveStyle exRenderer ⟨Style.default, Style.default⟩
          (RawGrapheme.other "x").is_whitespace)))
    ∧ (drawGrapheme trivialTracker exRenderer (RawGrapheme.other "x")
        ⟨Style.default, Style.default⟩ false 0 true
        ⟨3, exRenderer.col_offset + exRenderer.viewport.width⟩).ops = []) :=
  ⟨by decide,
   c4_right_edge_clipping trivialTracker exRenderer (RawGrapheme.other "x")
     ⟨Style.default, Style.default⟩ false 0 true 3 (by decide)⟩

/-- Claim C7: for a non-virtual grapheme drawn in the visible window,
the style written is the syntax-layer style, patched by the whitespace
style exactly when the grapheme is whitespace, then patched by the
overlay-layer style; any fg attribute set by the overlay layer overrides
the whitespace styling. -/
theorem c7_style_composition (tk : TrackerOps σ) (r : TextRenderer σ)
    (g : RawGrapheme) (gs : GraphemeStyle) (lvl : Nat) (area : Bool)
    (pos : Position) (h1 : r.col_offset ≤ pos.col)
    (h2 : pos.col ≤ r.viewport.width + r.col_offset - 1) :
    ((drawGrapheme tk r g gs false lvl area pos).ops.head? =
      some (SurfaceOp.setString (r.viewport.x + (pos.col - r.col_offset))
        (r.viewport.y + pos.row) (resolveGlyph r g false).2
        ((if g.is_whitespace then gs.syntax_style.patch r.whitespace_style
          else gs.syntax_style).patch gs.overlay_style)))
    ∧ (∀ c, gs.overlay_style.fg = some c →
        (resolveStyle r gs g.is_whitespace).fg = some c) := by
  constructor
  · rw [drawGrapheme_head_in_bounds tk r g gs false lvl area pos h1 h2]
    rfl
  · intro c hc
    simp [resolveStyle, Style.patch, hc, Option.orElse]

/-- Witness for C7: a space grapheme at column 2, whitespace style and
overlay fg both set; the overlay fg wins. -/
theorem c7_style_composition_witness :
    exRenderer.col_offset ≤ 2
    ∧ 2 ≤ exRenderer.viewport.width + exRenderer.col_offset - 1
    ∧ (((drawGrapheme trivialTracker exRenderer (RawGrapheme.other " ")
        ⟨Style.default, exStyle⟩ false 0 true ⟨1, 2⟩).ops.head? =
      some (SurfaceOp.setString (exRenderer.viewport.x + (2 - exRenderer.col_offset))
        (exRenderer.viewport.y + 1)
        (resolveGlyph exRenderer (RawGrapheme.other " ") false).2
        ((if (RawGrapheme.other " ").is_whitespace then
            Style.default.patch exRenderer.whitespace_style
          else Style.default).patch exStyle)))
    ∧ (∀ c, exStyle.fg = some c →
        (resolveStyle exRenderer ⟨Style.default, exStyle⟩
          (RawGrapheme.other " ").is_whitespace).fg = some c)) :=
  ⟨by decide, by decide,
   c7_style_composition trivialTracker exRenderer (RawGrapheme.other " ")
     ⟨Style.default, exStyle⟩ 0 true ⟨1, 2⟩ (by decide) (by decide)⟩

/-- A concrete render pass whose syntax-event stream is exhausted while
the driver is still skipping the scrolled-off row 0: the stream's single
span ends at char 1, reached at the second skipped grapheme.  The third
grapheme sits on the first visible row and would be drawn if the pass
continued. -/
def exC2Input : RenderInput Unit where
  cfg := exCfg
  renderer := exRenderer
  init_char_pos := 0
  init_first_visible_char_idx := 0
  items := [⟨0, ⟨RawGrapheme.other "a", GraphemeSource.document 1⟩, ⟨0, 0⟩⟩,
            ⟨0, ⟨RawGrapheme.other "b", GraphemeSource.document 1⟩, ⟨0, 1⟩⟩,
            ⟨1, ⟨RawGrapheme.other "c", GraphemeSource.document 1⟩, ⟨1, 0⟩⟩]
  final_pos := ⟨1, 1⟩
  syntax_events := [HighlightEvent.source 0 1]
  overlay_events := []
  entries := []

/-- Claim C2, counterexample: when the syntax stream runs dry while the
driver is still skipping rows above the viewport, the pass terminates at
once instead of substituting the sentinel span — the visible grapheme
"c" is never drawn and the trace is empty, although the grapheme
producer is not exhausted and the viewport height is not reached.  With
the same input but the stream already empty at initialization (so the
sentinel is substituted up front), the same grapheme is drawn with the
default style. -/
theorem c2_counterexample :
    (renderText exC2Input).trace = []
    ∧ (renderText { exC2Input with syntax_events := [] }).trace =
      [RenderEvent.op (SurfaceOp.setString 0 0 "c" Style.default)] := by
  constructor
  · rfl
  · rfl

/-- Claim C2, amended: the sentinel span (default style, end usize::MAX)
is substituted when a highlight stream is exhausted at initialization or
while advancing in the visible region (both use the same
unwrap-or-sentinel step, nextSpanOr); but when a stream is exhausted
while the driver is still skipping graphemes above the viewport, the
pass terminates immediately instead of continuing to its normal end. -/
theorem c2_sentinel_span (σ : Type) :
    (∀ (theme : Nat → Style) (ts : Style) (kind : StyleIterKind) (b2c : Nat → Nat)
        (active : List Nat) (evs : List HighlightEvent),
        styleIterNext theme ts kind b2c active evs = none →
        nextSpanOr theme ts kind b2c active evs = (sentinelSpan, active, evs))
    ∧ (∀ (cfg : RtCfg σ) (fp : Position) (item : FmtItem) (rest : List FmtItem)
        (st : RtSt σ),
        item.pos.row < cfg.row_off →
        st.syn_span.2 ≤ st.char_pos →
        styleIterNext cfg.theme st.renderer.text_style StyleIterKind.baseHighlights
          cfg.byteToNextChar st.syn_active st.syn_events = none →
        renderLoop cfg fp (item :: rest) st = st)
    ∧ (∀ (cfg : RtCfg σ) (fp : Position) (item : FmtItem) (rest : List FmtItem)
        (st st1 : RtSt σ),
        item.pos.row < cfg.row_off →
        skipAdvanceSyn cfg st = some st1 →
        st1.ov_span.2 ≤ st1.char_pos →
        styleIterNext cfg.theme Style.default StyleIterKind.overlay
          cfg.byteToNextChar st1.ov_active st1.ov_events = none →
        renderLoop cfg fp (item :: rest) st = st1) := by
  refine ⟨?_, ?_, ?_⟩
  · intro theme ts kind b2c active evs hnone
    unfold nextSpanOr
    rw [hnone]
  · intro cfg fp item rest st hrow hge hnone
    have hskip : skipAdvanceSyn cfg st = none := by
      unfold skipAdvanceSyn
      rw [if_pos hge, hnone]
      rfl
    simp only [renderLoop]
    rw [if_pos hrow, hskip]
  · intro cfg fp item rest st st1 hrow hsome hge hnone
    have hskip : skipAdvanceOv cfg st1 = none := by
      unfold skipAdvanceOv
      rw [if_pos hge, hnone]
      rfl
    simp only [renderLoop]
    rw [if_pos hrow]
    simp only [hsome]
    rw [hskip]

/-- A state whose syntax span has ended at the current offset with an
already-empty syntax stream, as reached mid-skip. -/
def exSkipSt : RtSt Unit where
  renderer := exRenderer
  char_pos := 1
  first_visible_char_idx := 2
  syn_active := []
  syn_events := []
  syn_span := (Style.default, 1)
  ov_active := []
  ov_events := []
  ov_span := sentinelSpan
  last_line_pos := ⟨false, USIZE_MAX, U16_MAX, USIZE_MAX⟩
  is_in_indent_area := true
  last_line_indent_level := 0
  entries := []
  trace := []

/-- A grapheme on a row above the viewport top (row_off 1). -/
def exSkipItem : FmtItem :=
  ⟨0, ⟨RawGrapheme.other "b", GraphemeSource.document 1⟩, ⟨0, 1⟩⟩

/-- Witness for the amended C2 at concrete inputs. -/
theorem c2_sentinel_span_witness :
    nextSpanOr (fun _ => Style.default) Style.default StyleIterKind.overlay id [] [] =
      (sentinelSpan, [], [])
    ∧ renderLoop exCfg ⟨1, 1⟩ [exSkipItem] exSkipSt = exSkipSt :=
  ⟨(c2_sentinel_span Unit).1 (fun _ => Style.default) Style.default
      StyleIterKind.overlay id [] [] rfl,
   (c2_sentinel_span Unit).2.1 exCfg ⟨1, 1⟩ exSkipItem [] exSkipSt
     (by decide) (by decide) rfl⟩

/-- A reached entry fires at the entry's position in the list: the
callback event for entry k + i appears in translateGo's fired events
when the entry at offset i is eligible and soft wrap is on. -/
theorem translateGo_fired_mem (cfg : TranslateCfg) (cp fv : Nat) (pos : Position)
    (hsw : cfg.soft_wrap = true) :
    ∀ (entries : List Nat) (i k ci : Nat), entries[i]? = some ci → ci < cp → fv ≤ ci →
      RenderEvent.translated (k + i) pos ∈ (translateGo cfg cp fv pos k entries).2 := by
  intro entries
  induction entries with
  | nil => intro i k ci h; simp at h
  | cons e es ih =>
    intro i k ci h hlt hfv
    match i with
    | 0 =>
      have he : e = ci := by simpa using h
      subst he
      simp only [translateGo]
      have hstep : (tpEntryStep cfg cp fv pos e).2 = some pos := by
        unfold tpEntryStep
        rw [if_pos ⟨hlt, hfv⟩]
        simp [hsw]
      rw [hstep]
      simp
    | i' + 1 =>
      simp only [translateGo]
      have hk : k + (i' + 1) = (k + 1) + i' := by omega
      rw [hk]
      exact List.mem_append_right _
        (ih i' (k + 1) ci (by simpa using h) hlt hfv)

/-- Claim C5: when the grapheme producer is exhausted and the last
visual position's row is not above the viewport top, the driver makes
exactly one final translation attempt with the position (last row minus
the vertical scroll offset, last column minus one) and the consumed
count bumped by one, then stops; a still-pending in-window request whose
index equals the final consumed character position + 1 (the running
char_pos) fires with exactly that position. -/
theorem c5_eof_translation (cfg : RtCfg σ) (fp : Position) (st : RtSt σ)
    (hrow : cfg.row_off ≤ fp.row) :
    (renderLoop cfg fp [] st = { st with
        entries := (translateGo (rtTranslateCfg cfg st.renderer) (st.char_pos + 1)
          st.first_visible_char_idx ⟨fp.row - cfg.row_off, fp.col - 1⟩ 0 st.entries).1,
        trace := st.trace ++ (translateGo (rtTranslateCfg cfg st.renderer) (st.char_pos + 1)
          st.first_visible_char_idx ⟨fp.row - cfg.row_off, fp.col - 1⟩ 0 st.entries).2 })
    ∧ (∀ i, st.entries[i]? = some st.char_pos →
        st.first_visible_char_idx ≤ st.char_pos → cfg.soft_wrap = true →
        RenderEvent.translated i ⟨fp.row - cfg.row_off, fp.col - 1⟩ ∈
          (renderLoop cfg fp [] st).trace) := by
  have heq : renderLoop cfg fp [] st = { st with
      entries := (translateGo (rtTranslateCfg cfg st.renderer) (st.char_pos + 1)
        st.first_visible_char_idx ⟨fp.row - cfg.row_off, fp.col - 1⟩ 0 st.entries).1,
      trace := st.trace ++ (translateGo (rtTranslateCfg cfg st.renderer) (st.char_pos + 1)
        st.first_visible_char_idx ⟨fp.row - cfg.row_off, fp.col - 1⟩ 0 st.entries).2 } := by
    simp only [renderLoop]
    rw [if_pos hrow]
  refine ⟨heq, ?_⟩
  intro i hi hfv hsw
  rw [heq]
  have hm := translateGo_fired_mem (rtTranslateCfg cfg st.renderer) (st.char_pos + 1)
    st.first_visible_char_idx ⟨fp.row - cfg.row_off, fp.col - 1⟩ hsw
    st.entries i 0 st.char_pos hi (by omega) hfv
  simpa using List.mem_append_right st.trace (by simpa using hm)

/-- A state at producer exhaustion with one pending request at index
char_pos (a cursor at end of document). -/
def c5St : RtSt Unit where
  renderer := exRenderer
  char_pos := 5
  first_visible_char_idx := 0
  syn_active := []
  syn_events := []
  syn_span := sentinelSpan
  ov_active := []
  ov_events := []
  ov_span := sentinelSpan
  last_line_pos := ⟨false, 0, 0, 0⟩
  is_in_indent_area := true
  last_line_indent_level := 0
  entries := [5]
  trace := []

/-- Witness for C5: the pending request at index 5 = char_pos fires at
the end-of-text crossing with position (1 - 1, 2 - 1) = (0, 1). -/
theorem c5_eof_translation_witness :
    RenderEvent.translated 0 ⟨0, 1⟩ ∈ (renderLoop exCfg ⟨1, 2⟩ [] c5St).trace :=
  (c5_eof_translation exCfg ⟨1, 2⟩ c5St (by decide)).2 0 rfl (by decide) rfl

/-- Claim C9: rendering is deterministic — two passes over identical
inputs (text, viewport, scroll state, highlight-event sequences, theme,
configuration, decorations, and a fresh translation-request list each
time) produce identical output traces, hence identical grids. -/
theorem c9_deterministic_rendering (σ : Type) (a b : RenderInput σ) (h : a = b) :
    (renderText a).trace = (renderText b).trace := by rw [h]

/-- Witness for C9 at a concrete input. -/
theorem c9_deterministic_rendering_witness :
    (renderText exC2Input).trace = (renderText exC2Input).trace :=
  c9_deterministic_rendering Unit exC2Input exC2Input rfl
